import Mathlib

/-!
Shallow embedding of the godistcache in-process key/value cache
(package godistcache: `Cache`, `CacheItem`, the entry-store operations,
the AES-CBC string codec helpers `pkcs5Padding` / `pkcs5Unpad` /
`encryptString` / `decryptString`, the construction-time cipher setup
`getEncryptionObjects`, and the snapshot save/load paths).

Modelling conventions:
- Go strings are byte sequences, embedded as `List Nat` (each element a byte
  value below 256 at the concrete inputs we evaluate).
- The Go map `map[string]CacheItem` is embedded as an association list with Go
  map semantics: reading an absent key yields the zero `CacheItem`, insertion
  overwrites, deletion removes.
- `time.Now().UTC().Unix()` is passed explicitly as an integer `now` argument.
- Go runtime panics (out-of-range slice, failed type assertion, nil block mode,
  `CryptBlocks` on a partial block) are a distinct `CallResult.panicked`
  outcome, separate from returned `error` values.
- The AES-256-CBC `cipher.BlockMode` pair produced by the Go standard library
  is an external collaborator; it is embedded as an opaque byte-list
  transformer carried in the `Cache`, exactly where the source stores the
  `cipher.BlockMode`. The padding, base64 and control flow around it are
  embedded concretely.
- File-system and gob-codec effects of the snapshot paths are supplied as
  explicit outcome parameters, mirroring the source's sequence of checks.
-/

namespace Godistcache

/-- Go strings are byte sequences; payload and ciphertext strings are embedded
as lists of byte values. -/
abbrev GoString := List Nat

/-- Go `interface{}` values stored in the cache: the nil interface, strings,
and a representative non-string payload (integers). -/
inductive GoVal where
  | vnil : GoVal
  | vstr : GoString → GoVal
  | vint : Int → GoVal
  deriving Repr, DecidableEq

/-- CacheItem from the source: the stored value `V` and the expiration
timestamp `E` in Unix UTC seconds. -/
structure CacheItem where
  V : GoVal
  E : Int
  deriving Repr, DecidableEq

/-- The zero value of `CacheItem` (`CacheItem{}` in the source): Go map reads
of an absent key return this, and the source compares against it to detect
absence. -/
def zeroItem : CacheItem := ⟨GoVal.vnil, 0⟩

/-- Association-list embedding of the Go map `map[string]CacheItem`. -/
abbrev CacheMap := List (GoString × CacheItem)

/-- Go map read `m[k]`: the first binding of `k`, or the zero item. -/
def mapLookup : CacheMap → GoString → CacheItem
  | [], _ => zeroItem
  | (k', v) :: rest, k => if k' = k then v else mapLookup rest k

/-- Go `delete(m, k)`: removes every binding of `k`. -/
def mapErase : CacheMap → GoString → CacheMap
  | [], _ => []
  | (k', v) :: rest, k =>
    if k' = k then mapErase rest k else (k', v) :: mapErase rest k

/-- Go map write `m[k] = v`: overwrites any existing binding of `k`. -/
def mapInsert (m : CacheMap) (k : GoString) (v : CacheItem) : CacheMap :=
  (k, v) :: mapErase m k

/-- Go map membership (the two-result read `_, ok := m[k]`). -/
def mapMem : CacheMap → GoString → Bool
  | [], _ => false
  | (k', _) :: rest, k => if k' = k then true else mapMem rest k

/-- Outcome of a Go call in the embedding: a normal return value, a returned
`error`, or a runtime panic. -/
inductive CallResult (α : Type) where
  | ok : α → CallResult α
  | err : String → CallResult α
  | panicked : CallResult α
  deriving Repr, DecidableEq

/-- True exactly when the call returned a Go `error` (panics are not returned
errors). -/
def CallResult.isErr {α : Type} : CallResult α → Bool
  | CallResult.err _ => true
  | _ => false

/-- The main cache object from the source. The `cipher.BlockMode` pair
(`crypt`, `decrypt`) is embedded as opaque byte-list transformers; `none`
models the nil block modes of a cache built without encryption. The external
S3 client field and the mutex are not part of the sequential state. -/
structure Cache where
  items : CacheMap
  exp : Int
  crypt : Option (List Nat → List Nat)
  decrypt : Option (List Nat → List Nat)

/-- Source `Put`: unconditional upsert with expiry `now + c.exp`. -/
def Cache.Put (c : Cache) (key : GoString) (value : GoVal) (now : Int) : Cache :=
  { c with items := mapInsert c.items key ⟨value, now + c.exp⟩ }

/-- Source `PutExp`: upsert with a caller-supplied expiry offset. -/
def Cache.PutExp (c : Cache) (key : GoString) (value : GoVal) (exp now : Int) : Cache :=
  { c with items := mapInsert c.items key ⟨value, now + exp⟩ }

/-- Source `Delete`: unconditional removal. -/
def Cache.Delete (c : Cache) (key : GoString) : Cache :=
  { c with items := mapErase c.items key }

/-- Source `Get`: read the item; a zero item means absent; an expired item is
deleted and reported as a miss; otherwise the value is returned. The Go
return pair `(any, bool)` is the first component (`nil` embedded as `vnil`),
and the possibly-updated cache is the second. -/
def Cache.Get (c : Cache) (key : GoString) (now : Int) : (GoVal × Bool) × Cache :=
  let v := mapLookup c.items key
  if v = zeroItem then ((GoVal.vnil, false), c)
  else if v.E < now then ((GoVal.vnil, false), c.Delete key)
  else ((v.V, true), c)

/-- Source `DeleteSafe`: deletes the key and only then reads it back,
comparing the read against the zero item. -/
def Cache.DeleteSafe (c : Cache) (key : GoString) : Bool × Cache :=
  let m := mapErase c.items key
  let v := mapLookup m key
  (if v = zeroItem then false else true, { c with items := m })

/-- Source `Count`: length of the underlying map. -/
def Cache.Count (c : Cache) : Nat := c.items.length

/-- Source `Exists`: reads the item and compares against the zero item; it
performs no writes (the embedding returns only the boolean). -/
def Cache.ExistsKey (c : Cache) (key : GoString) : Bool :=
  let v := mapLookup c.items key
  if v = zeroItem then false else true

/-- Source `Clear`: empties the map. -/
def Cache.Clear (c : Cache) : Cache := { c with items := [] }

/-!
Crypto codec. `pkcs5Padding` and `pkcs5Unpad` are repository code; standard
base64 (RFC 4648 with padding, as in Go's `encoding/base64.StdEncoding`) is
embedded concretely so the codec is executable end to end.
-/

/-- ASCII code of the standard base64 alphabet character for a 6-bit value. -/
def b64Char (n : Nat) : Nat :=
  if n < 26 then 65 + n
  else if n < 52 then 97 + (n - 26)
  else if n < 62 then 48 + (n - 52)
  else if n = 62 then 43
  else 47

/-- Inverse of the standard base64 alphabet; `none` for characters outside it. -/
def b64Index (ch : Nat) : Option Nat :=
  if 65 ≤ ch ∧ ch ≤ 90 then some (ch - 65)
  else if 97 ≤ ch ∧ ch ≤ 122 then some (ch - 97 + 26)
  else if 48 ≤ ch ∧ ch ≤ 57 then some (ch - 48 + 52)
  else if ch = 43 then some 62
  else if ch = 47 then some 63
  else none

/-- Go `base64.StdEncoding.EncodeToString`: encode byte triples into four
alphabet characters, padding a final 1- or 2-byte group with `=` (code 61). -/
def base64Encode : List Nat → List Nat
  | [] => []
  | [b0] => [b64Char (b0 / 4), b64Char (b0 % 4 * 16), 61, 61]
  | [b0, b1] =>
    [b64Char (b0 / 4), b64Char (b0 % 4 * 16 + b1 / 16), b64Char (b1 % 16 * 4), 61]
  | b0 :: b1 :: b2 :: rest =>
    b64Char (b0 / 4) :: b64Char (b0 % 4 * 16 + b1 / 16) ::
      b64Char (b1 % 16 * 4 + b2 / 64) :: b64Char (b2 % 64) :: base64Encode rest

/-- Go `base64.StdEncoding.DecodeString`: decode four-character groups,
accepting `=` padding only at the very end; `none` models the
`CorruptInputError` returned for malformed input. -/
def base64Decode : List Nat → Option (List Nat)
  | [] => some []
  | c0 :: c1 :: c2 :: c3 :: rest =>
    match b64Index c0, b64Index c1 with
    | some n0, some n1 =>
      if c2 = 61 then
        if c3 = 61 ∧ rest = [] then some [n0 * 4 + n1 / 16] else none
      else
        match b64Index c2 with
        | some n2 =>
          if c3 = 61 then
            if rest = [] then some [n0 * 4 + n1 / 16, n1 % 16 * 16 + n2 / 4]
            else none
          else
            match b64Index c3 with
            | some n3 =>
              (base64Decode rest).map
                (fun bs => (n0 * 4 + n1 / 16) :: (n1 % 16 * 16 + n2 / 4) ::
                  (n2 % 4 * 64 + n3) :: bs)
            | none => none
        | none => none
    | _, _ => none
  | _ => none

/-- Source `pkcs5Padding`: append `size - len % size` copies of that count
(as a byte) to the plaintext. -/
def pkcs5Padding (plain : List Nat) (size : Nat) : List Nat :=
  let pad := size - plain.length % size
  plain ++ List.replicate pad (pad % 256)

/-- Source `pkcs5Unpad`: read the last byte and slice it off the end. The
source indexes `v[len(v)-1]` and slices `v[:len(v)-unpad]` with no bounds
validation; `none` models the runtime panic on an empty input or on a pad
count exceeding the length. -/
def pkcs5Unpad (v : List Nat) : Option (List Nat) :=
  match v.getLast? with
  | none => none
  | some last =>
    if v.length < last then none else some (v.take (v.length - last))

/-- Source `encryptString`: pad to the 16-byte AES block size, run the
encrypting block mode, base64-encode. -/
def encryptString (crypt : List Nat → List Nat) (value : GoString) : GoString :=
  base64Encode (crypt (pkcs5Padding value 16))

/-- Source `decryptString`: base64-decode (returning the decode error on
failure), run the decrypting block mode (which panics unless the input is a
whole number of 16-byte blocks), then `pkcs5Unpad` (which can panic; see
`pkcs5Unpad`). -/
def decryptString (dec : List Nat → List Nat) (value : GoString) : CallResult GoString :=
  match base64Decode value with
  | none => CallResult.err "illegal base64 data at input byte"
  | some cryptVal =>
    if cryptVal.length % 16 ≠ 0 then CallResult.panicked
    else
      match pkcs5Unpad (dec cryptVal) with
      | none => CallResult.panicked
      | some plain => CallResult.ok plain

/-- Source `PutCrypt`: errors when no cipher is configured; otherwise stores
`encryptString` applied to the KEY argument (the source passes `key`, not
`value`, to `encryptString`, and its `value` parameter is unused). -/
def Cache.PutCrypt (c : Cache) (key value : GoString) (now : Int) :
    CallResult Unit × Cache :=
  match c.crypt with
  | none => (CallResult.err "Encryption not set up", c)
  | some crypt =>
    let v := encryptString crypt key
    (CallResult.ok (),
      { c with items := mapInsert c.items key ⟨GoVal.vstr v, now + c.exp⟩ })

/-- Source `GetCrypt`: distinguishes absent (`Entry doesn't exist`) from
expired (`Entry is expired`, which also deletes); then type-asserts the
stored value to string (panicking on any non-string payload), dereferences
the decrypting block mode (panicking when it is nil), and decrypts. -/
def Cache.GetCrypt (c : Cache) (key : GoString) (now : Int) :
    CallResult GoString × Cache :=
  let v := mapLookup c.items key
  if v = zeroItem then (CallResult.err "Entry doesn't exist", c)
  else if v.E < now then (CallResult.err "Entry is expired", c.Delete key)
  else
    match v.V with
    | GoVal.vstr s =>
      match c.decrypt with
      | none => (CallResult.panicked, c)
      | some dec =>
        match decryptString dec s with
        | CallResult.ok val => (CallResult.ok val, c)
        | CallResult.err e => (CallResult.err e, c)
        | CallResult.panicked => (CallResult.panicked, c)
    | _ => (CallResult.panicked, c)

/-!
Construction-time cipher setup and the snapshot file paths. File-system and
gob effects are supplied as explicit outcome parameters.
-/

/-- Outcome of constructing the cipher block modes, as observed by `New`:
encryption enabled, encryption disabled, a returned configuration error, or a
runtime panic. -/
inductive NewOutcome where
  | ok : Bool → NewOutcome
  | err : String → NewOutcome
  | panicked : NewOutcome
  deriving Repr, DecidableEq

/-- Source `getEncryptionObjects`, keyed on the lengths of the two
environment values. When both are non-empty, the source rejects with its
configuration error only when the key length differs from 32 AND the IV
length differs from 16; it then calls `aes.NewCipher`, which returns a
`KeySizeError` unless the key length is 16, 24 or 32 (Go standard library),
and `cipher.NewCBCEncrypter`, which panics when the IV length differs from
the 16-byte AES block size (Go standard library). When either value is empty
it returns nil block modes and no error. -/
def getEncryptionObjects (key iv : GoString) : NewOutcome :=
  if 0 < key.length ∧ 0 < iv.length then
    if key.length ≠ 32 ∧ iv.length ≠ 16 then
      NewOutcome.err "AES Key must be 32 characters and Cihper IV must be 16"
    else if ¬ (key.length = 16 ∨ key.length = 24 ∨ key.length = 32) then
      NewOutcome.err "crypto/aes: invalid key size"
    else if iv.length ≠ 16 then NewOutcome.panicked
    else NewOutcome.ok true
  else NewOutcome.ok false

/-- Outcomes of the file-system and gob calls made by `SaveToBinaryFile`, in
source order: `enc.Encode(c.items)`, `os.Stat` (whether the target file
exists), `os.Remove`, `os.WriteFile`. -/
structure FsOutcome where
  encodeOk : Bool
  statFound : Bool
  removeOk : Bool
  writeOk : Bool
  deriving Repr, DecidableEq

/-- Source `SaveToBinaryFile`: returns the gob encode error; if the target
file exists, returns the remove error; then calls `os.WriteFile` WITHOUT
inspecting its error and returns nil. -/
def Cache.SaveToBinaryFile (c : Cache) (fs : FsOutcome) : CallResult Unit :=
  if fs.encodeOk = false then CallResult.err "gob encode failed"
  else if fs.statFound ∧ fs.removeOk = false then CallResult.err "remove failed"
  else CallResult.ok ()

/-- Source `LoadFromBinary`: returns the `os.ReadFile` error (`readResult =
none`); returns the gob decode error (`dec file = none`); otherwise clears
the cache and points its map at the decoded map. -/
def Cache.LoadFromBinary (c : Cache) (readResult : Option (List Nat))
    (dec : List Nat → Option CacheMap) : CallResult Unit × Cache :=
  match readResult with
  | none => (CallResult.err "read failed", c)
  | some file =>
    match dec file with
    | none => (CallResult.err "gob decode failed", c)
    | some m => (CallResult.ok (), { c.Clear with items := m })

/-!
Concrete fixtures used by counterexamples and witnesses.
-/

/-- Byte string of the one-character Go string `a`. -/
def keyA : GoString := [97]

/-- Byte string of the one-character Go string `b`. -/
def valB : GoString := [98]

/-- An opaque block-mode transformer instance (the identity on byte lists;
any freshly initialized encrypt/decrypt CBC pair composes to the identity on
whole-block inputs, which is all the round-trip observes). -/
def idBlocks : List Nat → List Nat := fun bs => bs

/-- An empty cache with the block-mode pair configured. -/
def cryptCache : Cache :=
  { items := [], exp := 5, crypt := some idBlocks, decrypt := some idBlocks }

/-- An empty cache without encryption configured. -/
def noCryptCache : Cache :=
  { items := [], exp := 5, crypt := none, decrypt := none }

/-- A cache whose map holds the key `a` bound to the zero `CacheItem` (as
produced, for example, by `PutExp` of a nil value with expiry landing on 0). -/
def cacheZero : Cache :=
  { items := [(keyA, zeroItem)], exp := 5, crypt := none, decrypt := none }

/-- Sixteen decrypted bytes whose last byte (255) exceeds the buffer length,
driving the unvalidated unpad slice out of range. -/
def badPlain16 : List Nat := List.replicate 15 0 ++ [255]

/-- A cache whose map holds the key `a` bound to a live non-string payload. -/
def cacheLive : Cache :=
  { items := [(keyA, ⟨GoVal.vint 7, 100⟩)], exp := 5, crypt := none, decrypt := none }

/-!
Lemmas about the Go-map model.
-/

/-- Reading a key right after writing it yields the written item. -/
theorem mapLookup_insert (m : CacheMap) (k : GoString) (v : CacheItem) :
    mapLookup (mapInsert m k v) k = v := by
  simp [mapInsert, mapLookup]

/-- Reading a key right after deleting it yields the zero item. -/
theorem mapLookup_erase (m : CacheMap) (k : GoString) :
    mapLookup (mapErase m k) k = zeroItem := by
  induction m with
  | nil => rfl
  | cons p rest ih =>
    obtain ⟨k', v⟩ := p
    by_cases h : k' = k
    · simpa [mapErase, h] using ih
    · simp [mapErase, mapLookup, h, ih]

/-- A deleted key is no longer a member. -/
theorem mapMem_erase (m : CacheMap) (k : GoString) :
    mapMem (mapErase m k) k = false := by
  induction m with
  | nil => rfl
  | cons p rest ih =>
    obtain ⟨k', v⟩ := p
    by_cases h : k' = k
    · simpa [mapErase, h] using ih
    · simp [mapErase, mapMem, h, ih]

/-- Reading an absent key yields the zero item. -/
theorem mapLookup_eq_zero_of_not_mem (m : CacheMap) (k : GoString)
    (h : mapMem m k = false) : mapLookup m k = zeroItem := by
  induction m with
  | nil => rfl
  | cons p rest ih =>
    obtain ⟨k', v⟩ := p
    by_cases hk : k' = k
    · simp [mapMem, hk] at h
    · simp only [mapMem, if_neg hk] at h
      simp [mapLookup, hk, ih h]

/-- A key whose read is not the zero item is a member. -/
theorem mapMem_of_lookup_ne_zero (m : CacheMap) (k : GoString)
    (h : mapLookup m k ≠ zeroItem) : mapMem m k = true := by
  by_contra hc
  exact h (mapLookup_eq_zero_of_not_mem m k (by simpa using hc))

/-- Deletion never grows the map. -/
theorem mapErase_length_le (m : CacheMap) (k : GoString) :
    (mapErase m k).length ≤ m.length := by
  induction m with
  | nil => exact Nat.le_refl 0
  | cons p rest ih =>
    obtain ⟨k', v⟩ := p
    by_cases h : k' = k
    · simp only [mapErase, if_pos h, List.length_cons]
      exact Nat.le_succ_of_le ih
    · simp only [mapErase, if_neg h, List.length_cons]
      exact Nat.succ_le_succ ih

/-- Deleting a present key strictly shrinks the map. -/
theorem mapErase_length_lt (m : CacheMap) (k : GoString)
    (h : mapMem m k = true) : (mapErase m k).length < m.length := by
  induction m with
  | nil => simp [mapMem] at h
  | cons p rest ih =>
    obtain ⟨k', v⟩ := p
    by_cases hk : k' = k
    · simp only [mapErase, if_pos hk, List.length_cons]
      exact Nat.lt_succ_of_le (mapErase_length_le rest k)
    · simp only [mapMem, if_neg hk] at h
      simp only [mapErase, if_neg hk, List.length_cons]
      exact Nat.succ_lt_succ (ih h)

/-- C1: the source's `PutCrypt` never reads its `value` argument (it encrypts
the key instead), so the stored state is identical for any two values; on a
cache with a configured cipher, `PutCrypt` of value `b` under key `a`
followed by `GetCrypt` of `a` returns the KEY `a` with no error, not the
value `b`; and `PutCrypt` returns the `Encryption not set up` error when no
cipher is configured. -/
theorem C1_putCrypt_encrypts_key :
    (∀ (c : Cache) (k v1 v2 : GoString) (now : Int),
      c.PutCrypt k v1 now = c.PutCrypt k v2 now) ∧
    ((cryptCache.PutCrypt keyA valB 1).snd.GetCrypt keyA 1).fst =
      CallResult.ok keyA ∧
    keyA ≠ valB ∧
    (noCryptCache.PutCrypt keyA valB 1).fst =
      CallResult.err "Encryption not set up" := by
  refine ⟨fun c k v1 v2 now => rfl, by decide, by decide, rfl⟩

/-- C2: `DeleteSafe` deletes the key and only afterwards reads the map, so it
returns false for every cache and key, including a key that held a live entry
immediately before the call (the key is indeed absent afterwards). -/
theorem C2_deleteSafe_always_false :
    (∀ (c : Cache) (k : GoString), (c.DeleteSafe k).fst = false) ∧
    mapMem cacheLive.items keyA = true ∧
    (cacheLive.DeleteSafe keyA).fst = false ∧
    mapMem (cacheLive.DeleteSafe keyA).snd.items keyA = false := by
  refine ⟨?_, by decide, by decide, by decide⟩
  intro c k
  simp [Cache.DeleteSafe, mapLookup_erase]

/-- C3: `Put` followed immediately by `Get` at a positive Unix time, while
the TTL has not elapsed, returns the stored value and true. -/
theorem C3_put_then_get (c : Cache) (k : GoString) (v : GoVal) (t now : Int)
    (hnow : 0 < now) (httl : ¬ (t + c.exp < now)) :
    ((c.Put k v t).Get k now).fst = (v, true) := by
  have hlook : mapLookup (c.Put k v t).items k = ⟨v, t + c.exp⟩ := by
    simp [Cache.Put, mapLookup_insert]
  have hzero : (CacheItem.mk v (t + c.exp)) ≠ zeroItem := by
    intro hcontra
    have hE := congrArg CacheItem.E hcontra
    simp [zeroItem] at hE
    omega
  simp [Cache.Get, hlook, hzero, httl]

/-- Witness for C3: concrete put/get round-trip with unelapsed TTL. -/
theorem C3_witness :
    (0 : Int) < 2 ∧ ¬ ((1 : Int) + noCryptCache.exp < 2) ∧
    ((noCryptCache.Put keyA (GoVal.vint 9) 1).Get keyA 2).fst =
      (GoVal.vint 9, true) :=
  ⟨by decide, by decide,
    C3_put_then_get noCryptCache keyA (GoVal.vint 9) 1 2 (by decide) (by decide)⟩

/-- C4: the source's length guard rejects only when the key length differs
from 32 AND the IV length differs from 16, so a 24-byte key with a 16-byte IV
passes the guard and constructs successfully (as AES-192) instead of failing;
a 32-byte key with an 8-byte IV passes the guard and then panics in
`cipher.NewCBCEncrypter` instead of returning a configuration error. The
absent-key path does succeed with encryption disabled, where crypt operations
return the not-configured error and plain operations work. -/
theorem C4_length_guard_is_conjunction :
    getEncryptionObjects (List.replicate 24 97) (List.replicate 16 74) =
      NewOutcome.ok true ∧
    getEncryptionObjects (List.replicate 32 97) (List.replicate 8 74) =
      NewOutcome.panicked ∧
    getEncryptionObjects [] (List.replicate 16 74) = NewOutcome.ok false ∧
    (noCryptCache.PutCrypt keyA valB 1).fst =
      CallResult.err "Encryption not set up" ∧
    ((noCryptCache.Put keyA (GoVal.vint 1) 1).Get keyA 1).fst =
      (GoVal.vint 1, true) := by
  refine ⟨by decide, by decide, by decide, rfl, by decide⟩

/-- C5: `decryptString` returns a Go error exactly when base64 decoding
fails (for every block-mode transformer and input); the unpadding step is
partial: a base64-valid 16-byte ciphertext whose decrypted buffer ends in
byte 255 (exceeding the 16-byte length) drives `pkcs5Unpad` out of range,
and the whole decode path panics rather than erroring there. -/
theorem C5_decode_error_iff_base64 :
    (∀ (dec : List Nat → List Nat) (value : GoString),
      (decryptString dec value).isErr = (base64Decode value).isNone) ∧
    base64Decode (base64Encode badPlain16) = some badPlain16 ∧
    badPlain16.getLast? = some 255 ∧
    badPlain16.length = 16 ∧
    pkcs5Unpad badPlain16 = none ∧
    decryptString idBlocks (base64Encode badPlain16) = CallResult.panicked := by
  refine ⟨?_, by decide, by decide, by decide, by decide, by decide⟩
  intro dec value
  unfold decryptString
  cases h : base64Decode value with
  | none => rfl
  | some bs =>
    by_cases hlen : bs.length % 16 ≠ 0
    · simp [hlen, CallResult.isErr]
    · cases hp : pkcs5Unpad (dec bs) <;> simp [hlen, hp, CallResult.isErr]

/-- C6: `SaveToBinaryFile` calls `os.WriteFile` without inspecting its error:
it returns nil on a failed write (encode succeeded, no pre-existing file),
and its result never depends on the write outcome at all. -/
theorem C6_save_ignores_write_error :
    noCryptCache.SaveToBinaryFile ⟨true, false, true, false⟩ = CallResult.ok () ∧
    (∀ (c : Cache) (fs : FsOutcome),
      c.SaveToBinaryFile fs =
        c.SaveToBinaryFile ⟨fs.encodeOk, fs.statFound, fs.removeOk, true⟩) :=
  ⟨rfl, fun c fs => rfl⟩

/-- C7 (counterexample): the key `a` is present and its stored expiry (0) is
strictly before now (5), yet `Get` neither deletes it nor changes `Count`,
because the zero-valued entry is indistinguishable from absence in the
source's `v == CacheItem{}` check. -/
theorem C7_counterexample_zero_entry :
    mapMem cacheZero.items keyA = true ∧
    (mapLookup cacheZero.items keyA).E < 5 ∧
    (cacheZero.Get keyA 5).fst = (GoVal.vnil, false) ∧
    (cacheZero.Get keyA 5).snd.items = cacheZero.items ∧
    cacheZero.Count = 1 ∧ ((cacheZero.Get keyA 5).snd).Count = 1 := by
  refine ⟨by decide, by decide, by decide, by decide, by decide, by decide⟩

/-- C7 (amended): for every key bound to a NON-ZERO entry whose expiry is
strictly before now, `Get` returns (nil, false) and deletes the entry, so the
key is gone and `Count` strictly decreases; for an absent key `Get` returns
(nil, false) leaving the cache unchanged. An entry equal to the zero
`CacheItem` is treated as absent and left in place. -/
theorem C7_expired_get_deletes :
    (∀ (c : Cache) (k : GoString) (now : Int),
      mapLookup c.items k ≠ zeroItem → (mapLookup c.items k).E < now →
        c.Get k now = ((GoVal.vnil, false), c.Delete k) ∧
        mapMem (c.Delete k).items k = false ∧
        (c.Delete k).Count < c.Count) ∧
    (∀ (c : Cache) (k : GoString) (now : Int),
      mapMem c.items k = false → c.Get k now = ((GoVal.vnil, false), c)) := by
  constructor
  · intro c k now h1 h2
    have hmem := mapMem_of_lookup_ne_zero c.items k h1
    refine ⟨by simp [Cache.Get, h1, h2], ?_, ?_⟩
    · simp [Cache.Delete, mapMem_erase]
    · simpa [Cache.Delete, Cache.Count] using mapErase_length_lt c.items k hmem
  · intro c k now h
    have hz := mapLookup_eq_zero_of_not_mem c.items k h
    simp [Cache.Get, hz]

/-- Witness for C7: a live entry at `a` with expiry 100 observed at time 200
is reported missing, deleted, and no longer counted. -/
theorem C7_witness :
    mapLookup cacheLive.items keyA ≠ zeroItem ∧
    (mapLookup cacheLive.items keyA).E < 200 ∧
    cacheLive.Get keyA 200 = ((GoVal.vnil, false), cacheLive.Delete keyA) ∧
    mapMem (cacheLive.Delete keyA).items keyA = false ∧
    (cacheLive.Delete keyA).Count < cacheLive.Count :=
  have h := C7_expired_get_deletes.1 cacheLive keyA 200 (by decide) (by decide)
  ⟨by decide, by decide, h.1, h.2.1, h.2.2⟩

/-- C8: `LoadFromBinary` leaves the cache unchanged and returns an error when
the file read or the decode fails; on success it returns ok and the cache's
map becomes exactly the decoded map, so no pre-existing key survives unless
the decoded map contains it (replace, not merge). -/
theorem C8_load_replaces_map :
    (∀ (c : Cache) (dec : List Nat → Option CacheMap),
      c.LoadFromBinary none dec = (CallResult.err "read failed", c)) ∧
    (∀ (c : Cache) (file : List Nat) (dec : List Nat → Option CacheMap),
      dec file = none →
        c.LoadFromBinary (some file) dec = (CallResult.err "gob decode failed", c)) ∧
    (∀ (c : Cache) (file : List Nat) (dec : List Nat → Option CacheMap)
      (m : CacheMap),
      dec file = some m →
        (c.LoadFromBinary (some file) dec).fst = CallResult.ok () ∧
        (c.LoadFromBinary (some file) dec).snd.items = m ∧
        (∀ k : GoString, mapMem m k = false →
          mapMem (c.LoadFromBinary (some file) dec).snd.items k = false)) := by
  refine ⟨fun c dec => rfl, ?_, ?_⟩
  · intro c file dec h
    simp [Cache.LoadFromBinary, h]
  · intro c file dec m h
    refine ⟨by simp [Cache.LoadFromBinary, h], by simp [Cache.LoadFromBinary, h], ?_⟩
    intro k hk
    simpa [Cache.LoadFromBinary, h] using hk

/-- A concrete gob decoder outcome used by the C8 witness. -/
def decConst : List Nat → Option CacheMap :=
  fun _ => some [(valB, ⟨GoVal.vint 3, 50⟩)]

/-- Witness for C8: loading over a cache that held `a` produces exactly the
decoded single-binding map, and `a` is gone. -/
theorem C8_witness :
    (cacheLive.LoadFromBinary (some [0]) decConst).fst = CallResult.ok () ∧
    (cacheLive.LoadFromBinary (some [0]) decConst).snd.items =
      [(valB, ⟨GoVal.vint 3, 50⟩)] ∧
    mapMem (cacheLive.LoadFromBinary (some [0]) decConst).snd.items keyA = false :=
  have h := C8_load_replaces_map.2.2 cacheLive [0] decConst
    [(valB, ⟨GoVal.vint 3, 50⟩)] rfl
  ⟨h.1, h.2.1, h.2.2 keyA (by decide)⟩

/-- C9 (counterexample): the key `a` is present in the map bound to the zero
`CacheItem`, whose expiry (0) is strictly before now (5); yet `ExistsKey`
reports false (the source's zero-item check conflates this entry with
absence), while `Get` also reports found = false. -/
theorem C9_counterexample_zero_entry :
    mapMem cacheZero.items keyA = true ∧
    (mapLookup cacheZero.items keyA).E < 5 ∧
    cacheZero.ExistsKey keyA = false ∧
    (cacheZero.Get keyA 5).fst.snd = false := by
  refine ⟨by decide, by decide, by decide, by decide⟩

/-- C9 (amended): for every key bound to a NON-ZERO entry whose expiry is
strictly before now, `Exists` reports true while `Get` on the same state
reports found = false; `Exists` performs no writes (it is a pure read of the
state in the embedding, as in the source). An entry equal to the zero
`CacheItem` is reported absent by both. -/
theorem C9_exists_disagrees_with_get :
    ∀ (c : Cache) (k : GoString) (now : Int),
      mapLookup c.items k ≠ zeroItem → (mapLookup c.items k).E < now →
        c.ExistsKey k = true ∧ (c.Get k now).fst.snd = false := by
  intro c k now h1 h2
  constructor
  · simp [Cache.ExistsKey, h1]
  · simp [Cache.Get, h1, h2]

/-- Witness for C9: the live entry at `a` (expiry 100) observed at time 200
still Exists but misses on Get. -/
theorem C9_witness :
    mapLookup cacheLive.items keyA ≠ zeroItem ∧
    (mapLookup cacheLive.items keyA).E < 200 ∧
    cacheLive.ExistsKey keyA = true ∧
    (cacheLive.Get keyA 200).fst.snd = false :=
  have h := C9_exists_disagrees_with_get cacheLive keyA 200 (by decide) (by decide)
  ⟨by decide, by decide, h.1, h.2⟩

/-- C10: `GetCrypt` on a present, unexpired entry inserted by plain `Put`
with a non-string payload panics on the unguarded string type assertion
instead of returning an error, leaving the cache unchanged. -/
theorem C10_getCrypt_panics_on_non_string (c : Cache) (k : GoString)
    (v : GoVal) (t now : Int) (hns : ∀ s : GoString, v ≠ GoVal.vstr s)
    (hnow : 0 < now) (httl : ¬ (t + c.exp < now)) :
    (c.Put k v t).GetCrypt k now = (CallResult.panicked, c.Put k v t) := by
  have hlook : mapLookup (c.Put k v t).items k = ⟨v, t + c.exp⟩ := by
    simp [Cache.Put, mapLookup_insert]
  have hzero : (CacheItem.mk v (t + c.exp)) ≠ zeroItem := by
    intro hcontra
    have hE := congrArg CacheItem.E hcontra
    simp [zeroItem] at hE
    omega
  cases v with
  | vstr s => exact absurd rfl (hns s)
  | vnil => simp only [Cache.GetCrypt, hlook, if_neg hzero, if_neg httl]
  | vint n => simp only [Cache.GetCrypt, hlook, if_neg hzero, if_neg httl]

/-- Witness for C10: a non-string payload put under `a` makes GetCrypt panic. -/
theorem C10_witness :
    (∀ s : GoString, GoVal.vint 42 ≠ GoVal.vstr s) ∧ (0 : Int) < 1 ∧
    ¬ ((1 : Int) + noCryptCache.exp < 1) ∧
    (noCryptCache.Put keyA (GoVal.vint 42) 1).GetCrypt keyA 1 =
      (CallResult.panicked, noCryptCache.Put keyA (GoVal.vint 42) 1) :=
  ⟨fun s h => GoVal.noConfusion h, by decide, by decide,
    C10_getCrypt_panics_on_non_string noCryptCache keyA (GoVal.vint 42) 1 1
      (fun s h => GoVal.noConfusion h) (by decide) (by decide)⟩

end Godistcache
